import Mathlib

/-!
Verification development for the MUI coupling functions of ParaSiF
(`src/CSM/FEniCS/V2019.1.0/structureFSISolver/functions/couplingMUIFn.py`).

The Python source is shallowly embedded below.  Scalars are modelled by a
linear ordered field `K` (instantiated with `ℚ` for executable evaluation and
with `ℝ` where the source uses `np.sqrt`).  External library routines that the
source calls (`np.sqrt`, `np.linalg.lstsq`, the MUI middleware `fetch`/`push`
primitives and `scipy`'s rotation fit) are passed in as explicit parameters or
characterised by their documented contracts; everything else is translated
line by line from the source.
-/

namespace ParaSiF

variable {K : Type} [LinearOrderedField K]

/-- `smallVal = 1e-32`, the minimum-distance / regularisation floor used by
both `getCofR` (line 568) and `ForceInterp` (line 577) of the source. -/
def smallVal : K := 1 / 10 ^ 32

/-! ## Load redistribution (`ForceInterp`, source lines 576–594) -/

/-- Distance of one support point from the centre of reaction, clamped below
by `smallVal`: source line 584–585, `distance = np.maximum(np.sqrt(np.sum(
np.power(Loc,2),axis=1)), smallVal)`.  The external `np.sqrt` is the
`sqrtFn` parameter (instantiated with `Real.sqrt` in the theorems). -/
def forceDist (sqrtFn : K → K) (CofR loc : Fin 3 → K) : K :=
  max (sqrtFn (∑ k, (loc k - CofR k) ^ 2)) smallVal

/-- Inverse-distance redistribution of a resultant force (source lines
576–594).  The source computes `W = np.sum(distance**(-1))*distance` and
`F_out[i] = F_in * W[i]**(-1)`. -/
def ForceInterp (sqrtFn : K → K) (F_in CofR : Fin 3 → K)
    (SpprtLoc : List (Fin 3 → K)) : List (Fin 3 → K) :=
  SpprtLoc.map (fun loc k =>
    F_in k *
      ((SpprtLoc.map (fun q => (forceDist sqrtFn CofR q)⁻¹)).sum *
        forceDist sqrtFn CofR loc)⁻¹)

/-- Component-wise sum of a list of 3-vectors (the aggregate the spec's
conservation property talks about). -/
def vecListSum (l : List (Fin 3 → K)) : Fin 3 → K :=
  fun k => (l.map (fun v => v k)).sum

/-! ## Centre-of-reaction recovery (`getCofR`, source lines 567–575) -/

/-- The regularised 3×3 system matrix of `getCofR` (source line 569). -/
def cofrA (F : Fin 3 → K) : Matrix (Fin 3) (Fin 3) K :=
  !![F 1, -F 0, smallVal; -F 2, smallVal, F 0; smallVal, F 2, -F 1]

/-- The right-hand side of `getCofR` (source line 570): `[[M[2]],[M[1]],[M[0]]]`. -/
def cofrB (M : Fin 3 → K) : Fin 3 → K := ![M 2, M 1, M 0]

/-- Sum of squared components of a 3-vector; Euclidean norm squared. -/
def sumSq (v : Fin 3 → K) : K := ∑ i, v i ^ 2

/-- Contract of `np.linalg.lstsq` (external library call at source line 572):
`L` is a least-squares solution of `A ⬝ x = B` of minimal norm. -/
def IsLstsqSol (A : Matrix (Fin 3) (Fin 3) K) (B L : Fin 3 → K) : Prop :=
  (∀ x, sumSq (A.mulVec L - B) ≤ sumSq (A.mulVec x - B)) ∧
  (∀ x, sumSq (A.mulVec x - B) = sumSq (A.mulVec L - B) → sumSq L ≤ sumSq x)

/-- `getCofR` (source lines 567–575): the least-squares correction `L` of the
external solver (the `lstsqFn` parameter, modelling `np.linalg.lstsq`) is
added to the previous centre of reaction. -/
def getCofR (lstsqFn : Matrix (Fin 3) (Fin 3) K → (Fin 3 → K) → Fin 3 → K)
    (F M CofR_old : Fin 3 → K) : Fin 3 → K :=
  fun k => CofR_old k + lstsqFn (cofrA F) (cofrB M) k

/-! ## The fetch cycle (`MUI_Fetch`, source lines 355–566)

The persistent applied-load buffer `tF_apply_vec` stores three force
components per DOF (the source interleaves them with stride 3; we index by
DOF number and component).  Entries are `Option K`: `some x` is the finite
float value `x`, `none` marks a non-finite value (IEEE `inf`/`nan`) produced
by dividing by a zero area weight. -/

/-- The applied-load buffer: DOF index ↦ component ↦ optional value. -/
def Buf (K : Type) := ℕ → Fin 3 → Option K

/-- Overwrite the three components of one DOF of the buffer. -/
def setEntry (buf : Buf K) (p : ℕ) (v : Fin 3 → Option K) : Buf K :=
  fun q => if q = p then v else buf q

/-- Configuration options consumed by `MUI_Fetch` (accessor methods of the
surrounding solver object in the source). -/
structure FetchConfig (K : Type) where
  iparallelFSICoupling : Bool
  iMUIFetchMode : ℕ
  iMUIFetchMany : Bool
  undRelxCpl : K
  areaf_vec : ℕ → K

/-- The MUI middleware's fetch primitives (external interface
`ifaces3d["threeDInterface0"]`): a single-point `fetch` and a batched
`fetch_many`, both selected by channel name, location(s) and time index. -/
structure FetchEnv (K : Type) where
  fetchScalar : String → (Fin 3 → K) → ℤ → K
  fetchMany : String → List (Fin 3 → K) → ℤ → List K

/-- Resolved fetch time index (source lines 365–368): lagged by one
sub-iteration under implicit/parallel coupling. -/
def fetchIteration (parallel : Bool) (total_Sub_Iteration : ℤ) : ℤ :=
  if parallel then total_Sub_Iteration - 1 else total_Sub_Iteration

/-- One read-modify-write blend of a buffer entry (source lines 494–505 and
544–554).  Line 363 of the source, `temp_vec_function_temp =
self.tF_apply_vec`, binds the temporary fetch buffer to the very same array
as the persistent buffer, so both the `temp_vec_function_temp[..][p]` read
and the `tF_apply_vec[..][p]` read below resolve to the same cell `b p k`. -/
def blendWrite (parallel : Bool) (r : K) (b : Buf K) (p : ℕ) : Buf K :=
  if parallel then
    setEntry b p (fun k =>
      (b p k).bind (fun tFv =>
        (b p k).bind (fun tempv => some (tFv + (tempv - tFv) * r))))
  else
    setEntry b p (fun k => b p k)

/-- Guarded division by the area weight (source lines 458–465 and 511–518):
a zero area weight forces the three components to exactly zero. -/
def divideGuarded (areaf : ℕ → K) (b : Buf K) (p : ℕ) : Buf K :=
  if areaf p = 0 then setEntry b p (fun _ => some 0)
  else setEntry b p (fun k => (b p k).map (fun x => x / areaf p))

/-- Unguarded division by the area weight (source lines 560–562,
`tF_apply_vec[..][p] /= areaf_vec[p]` with no zero test).  IEEE float
division by a zero divisor yields a non-finite value, modelled as `none`. -/
def divideUnguarded (areaf : ℕ → K) (b : Buf K) (p : ℕ) : Buf K :=
  setEntry b p (fun k =>
    (b p k).bind (fun x => if areaf p = 0 then none else some (x / areaf p)))

/-- Assignment loop of the resultant-mode fetch (source lines 445–465):
write the redistributed force of each fetch DOF, then apply the guarded
area-weight division. -/
def resultantLoop (areaf : ℕ → K) (F_out : List (Fin 3 → K))
    (dofs_fetch_list : List ℕ) (b : Buf K) : Buf K :=
  dofs_fetch_list.enum.foldl (fun b ip =>
    divideGuarded areaf
      (setEntry b ip.2 (fun k => some (F_out.getD ip.1 (fun _ => 0) k))) ip.2) b

/-- Batched assignment of the fetched force components into the (aliased)
temporary buffer (source lines 475–492): `temp_vec_function_temp[c::3]
[dofs_fetch_list] = fetch_many(...)`. -/
def manyAssign (fx fy fz : List K) (dofs_fetch_list : List ℕ) (b : Buf K) :
    Buf K :=
  dofs_fetch_list.enum.foldl (fun b ip =>
    setEntry b ip.2
      ![some (fx.getD ip.1 0), some (fy.getD ip.1 0), some (fz.getD ip.1 0)]) b

/-- Blend/total/divide loop of the batched per-DOF fetch (source lines
494–518). -/
def perDofLoopMany (parallel : Bool) (r : K) (areaf : ℕ → K)
    (dofs_fetch_list : List ℕ) (b : Buf K) : Buf K :=
  dofs_fetch_list.enum.foldl (fun b ip =>
    divideGuarded areaf (blendWrite parallel r b ip.2) ip.2) b

/-- One-call-per-point fetch loop (source lines 522–562): per DOF, fetch the
three components into the (aliased) temporary buffer, blend, then divide by
the area weight without a zero guard. -/
def perDofLoopSingle (parallel : Bool) (r : K) (areaf : ℕ → K)
    (env : FetchEnv K) (dofs_to_xyz : List (Fin 3 → K)) (it : ℤ)
    (dofs_fetch_list : List ℕ) (b : Buf K) : Buf K :=
  dofs_fetch_list.enum.foldl (fun b ip =>
    divideUnguarded areaf
      (blendWrite parallel r
        (setEntry b ip.2
          ![some (env.fetchScalar "forceX" (dofs_to_xyz.getD ip.1 (fun _ => 0)) it),
            some (env.fetchScalar "forceY" (dofs_to_xyz.getD ip.1 (fun _ => 0)) it),
            some (env.fetchScalar "forceZ" (dofs_to_xyz.getD ip.1 (fun _ => 0)) it)])
        ip.2)
      ip.2) b

/-- `MUI_Fetch` (source lines 355–566) as a buffer transformer.  `sqrtFn`
and `lstsqFn` stand for the external `np.sqrt` / `np.linalg.lstsq` calls,
`env` for the MUI middleware.  A negative resolved fetch index skips the
whole body (source line 370). -/
def MUI_Fetch (cfg : FetchConfig K) (sqrtFn : K → K)
    (lstsqFn : Matrix (Fin 3) (Fin 3) K → (Fin 3 → K) → Fin 3 → K)
    (env : FetchEnv K) (dofs_to_xyz : List (Fin 3 → K))
    (dofs_fetch_list : List ℕ) (total_Sub_Iteration : ℤ)
    (tF_apply_vec : Buf K) : Buf K :=
  let it := fetchIteration cfg.iparallelFSICoupling total_Sub_Iteration
  if 0 ≤ it then
    if cfg.iMUIFetchMode = 1 then
      let z3 : Fin 3 → K := fun _ => 0
      let CofR0 : Fin 3 → K :=
        ![env.fetchScalar "CofRX" z3 it, env.fetchScalar "CofRY" z3 it,
          env.fetchScalar "CofRZ" z3 it]
      let forceRecv : Fin 3 → K :=
        ![env.fetchScalar "forceX" z3 it, env.fetchScalar "forceY" z3 it,
          env.fetchScalar "forceZ" z3 it]
      let momentRecv : Fin 3 → K :=
        ![env.fetchScalar "momentX" z3 it, env.fetchScalar "momentY" z3 it,
          env.fetchScalar "momentZ" z3 it]
      let CofR := getCofR lstsqFn forceRecv momentRecv CofR0
      let F_out := ForceInterp sqrtFn forceRecv CofR dofs_to_xyz
      resultantLoop cfg.areaf_vec F_out dofs_fetch_list tF_apply_vec
    else if cfg.iMUIFetchMany then
      perDofLoopMany cfg.iparallelFSICoupling cfg.undRelxCpl cfg.areaf_vec
        dofs_fetch_list
        (manyAssign (env.fetchMany "forceX" dofs_to_xyz it)
          (env.fetchMany "forceY" dofs_to_xyz it)
          (env.fetchMany "forceZ" dofs_to_xyz it) dofs_fetch_list tF_apply_vec)
    else
      if 0 ≤ it then
        perDofLoopSingle cfg.iparallelFSICoupling cfg.undRelxCpl cfg.areaf_vec
          env dofs_to_xyz it dofs_fetch_list tF_apply_vec
      else tF_apply_vec
  else tF_apply_vec

/-! ## The push cycle and window management (`MUI_Push`, `MUI_Commit_only`,
source lines 597–708) and span announcement (`MUI_Sampler_Define`, source
lines 107–349).  These are modelled as event-trace producers: each call to a
MUI middleware primitive appends one event. -/

/-- An observable call to the MUI middleware (or a diagnostic warning
print). -/
inductive MUIEvent (K : Type) where
  | push (channel : String) (loc : Fin 3 → K) (value : K)
  | pushMany (channel : String) (locs : List (Fin 3 → K)) (values : List K)
  | commit (t : ℤ)
  | forget (t : ℤ)
  | setMemory (t : ℤ)
  | announceSendSpan (t0 t1 : ℤ) (lo hi : Fin 3 → K)
  | announceRecvSpan (t0 t1 : ℤ) (lo hi : Fin 3 → K)
  | warn (tag : String)

/-- Configuration options consumed by `MUI_Push` / `MUI_Commit_only`. -/
structure PushConfig (K : Type) where
  iMUIPushMode : ℕ
  iMUIPushMany : Bool
  iPushX : Bool
  iPushY : Bool
  iPushZ : Bool
  forgetTStepsMUI : ℤ
  pointA : Fin 3 → K
  pointB : Fin 3 → K
  pointC : Fin 3 → K
  pointD : Fin 3 → K

/-- The window-trimming block run after every commit (source lines 687–693
and 702–708): when the retention depth is nonzero and the current index
exceeds it, forget everything older than `current − retentionDepth` and
advertise the new memory horizon. -/
def forgetEvents (forgetTSteps : ℤ) (total_Sub_Iteration : ℤ) :
    List (MUIEvent K) :=
  if total_Sub_Iteration - forgetTSteps > 0 ∧ forgetTSteps ≠ 0 then
    [MUIEvent.forget (total_Sub_Iteration - forgetTSteps),
     MUIEvent.setMemory forgetTSteps]
  else []

/-- `corners_new = disp_array + init_array` (source line 649). -/
def cornersNewOf (dispArr initArr : List (Fin 3 → K)) : List (Fin 3 → K) :=
  (dispArr.zip initArr).map (fun q k => q.1 k + q.2 k)

/-- `Trans = np.mean(disp_array, axis=0)` (source line 653). -/
def rigidTrans (dispArr : List (Fin 3 → K)) : Fin 3 → K :=
  fun k => (dispArr.map (fun d => d k)).sum / (dispArr.length : K)

/-- Rigid-body push branch (source lines 636–666).  `pointDisp` models the
external `self.point_disp` lookup of a tracked point's displacement;
`alignFn` models `scipy.spatial.transform.Rotation.align_vectors` (line 650)
and `eulerFn` its `as_euler('xyz')` decomposition (line 652). -/
def rigidBodyEvents (cfg : PushConfig K)
    (alignFn : List (Fin 3 → K) → List (Fin 3 → K) → Matrix (Fin 3) (Fin 3) K)
    (eulerFn : Matrix (Fin 3) (Fin 3) K → Fin 3 → K)
    (pointDisp : (Fin 3 → K) → Fin 3 → K) : List (MUIEvent K) :=
  let initArr := [cfg.pointA, cfg.pointB, cfg.pointC, cfg.pointD]
  let dispArr := [pointDisp cfg.pointA, pointDisp cfg.pointB,
                  pointDisp cfg.pointC, pointDisp cfg.pointD]
  let eulerAngles := eulerFn (alignFn initArr (cornersNewOf dispArr initArr))
  let trans := rigidTrans dispArr
  let z3 : Fin 3 → K := fun _ => 0
  [MUIEvent.push "dispX" z3 (trans 0), MUIEvent.push "dispY" z3 (trans 1),
   MUIEvent.push "dispZ" z3 (trans 2),
   MUIEvent.push "angleX" z3 (-eulerAngles 0),
   MUIEvent.push "angleY" z3 (-eulerAngles 1),
   MUIEvent.push "angleZ" z3 (-eulerAngles 2)]

/-- `MUI_Push` (source lines 597–693) as an event trace.  `displacement`
maps a push DOF to its three displacement components (the strided
`d_vec_x/y/z` arrays of lines 601–603). -/
def MUI_Push (cfg : PushConfig K)
    (alignFn : List (Fin 3 → K) → List (Fin 3 → K) → Matrix (Fin 3) (Fin 3) K)
    (eulerFn : Matrix (Fin 3) (Fin 3) K → Fin 3 → K)
    (pointDisp : (Fin 3 → K) → Fin 3 → K)
    (dofs_to_xyz : List (Fin 3 → K)) (dofs_push : List ℕ)
    (displacement : ℕ → Fin 3 → K) (total_Sub_Iteration : ℤ) :
    List (MUIEvent K) :=
  (if cfg.iMUIPushMode = 0 then
    (if cfg.iMUIPushMany then
      (if cfg.iPushX then
        [MUIEvent.pushMany "dispX" dofs_to_xyz
          (dofs_push.map (fun p => displacement p 0))] else []) ++
      (if cfg.iPushY then
        [MUIEvent.pushMany "dispY" dofs_to_xyz
          (dofs_push.map (fun p => displacement p 1))] else []) ++
      (if cfg.iPushZ then
        [MUIEvent.pushMany "dispZ" dofs_to_xyz
          (dofs_push.map (fun p => displacement p 2))] else []) ++
      [MUIEvent.commit total_Sub_Iteration]
    else
      (if cfg.iPushX then
        (dofs_to_xyz.zip dofs_push).map
          (fun q => MUIEvent.push "dispX" q.1 (displacement q.2 0)) else []) ++
      (if cfg.iPushY then
        (dofs_to_xyz.zip dofs_push).map
          (fun q => MUIEvent.push "dispY" q.1 (displacement q.2 1)) else []) ++
      (if cfg.iPushZ then
        (dofs_to_xyz.zip dofs_push).map
          (fun q => MUIEvent.push "dispZ" q.1 (displacement q.2 2)) else []) ++
      [MUIEvent.commit total_Sub_Iteration])
  else if cfg.iMUIPushMode = 1 then
    rigidBodyEvents cfg alignFn eulerFn pointDisp ++
      [MUIEvent.commit total_Sub_Iteration]
  else []) ++ forgetEvents cfg.forgetTStepsMUI total_Sub_Iteration

/-- `MUI_Commit_only` (source lines 695–708): commit, then the same
window-trimming block as `MUI_Push`. -/
def MUI_Commit_only (forgetTSteps : ℤ) (total_Sub_Iteration : ℤ) :
    List (MUIEvent K) :=
  [MUIEvent.commit total_Sub_Iteration] ++
    forgetEvents forgetTSteps total_Sub_Iteration

/-- Extract the index of a commit event. -/
def commitOf : MUIEvent K → Option ℤ
  | MUIEvent.commit t => some t
  | _ => none

/-- Extract the index of a forget event. -/
def forgetOf : MUIEvent K → Option ℤ
  | MUIEvent.forget t => some t
  | _ => none

/-- Extract the horizon of a set-memory event. -/
def setMemoryOf : MUIEvent K → Option ℤ
  | MUIEvent.setMemory t => some t
  | _ => none

/-- Commit indices occurring in a trace, in order. -/
def commitTimes (evs : List (MUIEvent K)) : List ℤ := evs.filterMap commitOf

/-- Forget indices occurring in a trace, in order. -/
def forgetTimes (evs : List (MUIEvent K)) : List ℤ := evs.filterMap forgetOf

/-- Memory horizons advertised in a trace, in order. -/
def setMemoryTimes (evs : List (MUIEvent K)) : List ℤ :=
  evs.filterMap setMemoryOf

/-! ## Span announcement (`MUI_Sampler_Define`, source lines 122–250) -/

/-- `sys.float_info.max`, the initial value of the running minima/maxima
(source lines 122–128 and 175–181). -/
def FLOAT_MAX : K := 17976931348623157 * 10 ^ 292

/-- Per-axis running minimum over a DOF list (source lines 130–138 /
187–195). -/
def spanMin (xyz : ℕ → Fin 3 → K) (l : List ℕ) : Fin 3 → K :=
  l.foldl (fun mn p k => if xyz p k < mn k then xyz p k else mn k)
    (fun _ => FLOAT_MAX)

/-- Per-axis running maximum over a DOF list (source lines 140–147 /
197–204). -/
def spanMax (xyz : ℕ → Fin 3 → K) (l : List ℕ) : Fin 3 → K :=
  l.foldl (fun mx p k => if xyz p k > mx k then xyz p k else mx k)
    (fun _ => -FLOAT_MAX)

/-- The degenerate-box warning prints for one side (source lines 149–156 /
226–233): one warning per axis whose maximum is below its minimum. -/
def warnEvents (tag : String) (mn mx : Fin 3 → K) : List (MUIEvent K) :=
  (if mx 0 < mn 0 then [MUIEvent.warn (tag ++ "X")] else []) ++
  (if mx 1 < mn 1 then [MUIEvent.warn (tag ++ "Y")] else []) ++
  (if mx 2 < mn 2 then [MUIEvent.warn (tag ++ "Z")] else [])

/-- The span-announcement portion of `MUI_Sampler_Define` (source lines
122–250): compute the send/receive bounding boxes, warn about degenerate
axes, and announce each span only when the corresponding DOF list is
non-empty (lines 158 and 235).  The send-span lifetime is
`Total_Time_Steps * num_sub_iteration` (line 164), the receive-span lifetime
ten times that (line 241). -/
def MUI_Sampler_Define_spans (xyz : ℕ → Fin 3 → K)
    (dofs_push_list dofs_fetch_list : List ℕ)
    (Total_Time_Steps num_sub_iteration : ℤ) : List (MUIEvent K) :=
  warnEvents "sendSpanDegenerate"
      (spanMin xyz dofs_push_list) (spanMax xyz dofs_push_list) ++
  (if dofs_push_list.length ≠ 0 then
    [MUIEvent.announceSendSpan 0 (Total_Time_Steps * num_sub_iteration)
      (spanMin xyz dofs_push_list) (spanMax xyz dofs_push_list)]
  else []) ++
  warnEvents "recvSpanDegenerate"
      (spanMin xyz dofs_fetch_list) (spanMax xyz dofs_fetch_list) ++
  (if dofs_fetch_list.length ≠ 0 then
    [MUIEvent.announceRecvSpan 0 (Total_Time_Steps * num_sub_iteration * 10)
      (spanMin xyz dofs_fetch_list) (spanMax xyz dofs_fetch_list)]
  else [])

/-- Extract the parameters of a send-span announcement. -/
def sendSpanOf : MUIEvent K → Option (ℤ × ℤ × (Fin 3 → K) × (Fin 3 → K))
  | MUIEvent.announceSendSpan t0 t1 lo hi => some (t0, t1, lo, hi)
  | _ => none

/-- Extract the parameters of a receive-span announcement. -/
def recvSpanOf : MUIEvent K → Option (ℤ × ℤ × (Fin 3 → K) × (Fin 3 → K))
  | MUIEvent.announceRecvSpan t0 t1 lo hi => some (t0, t1, lo, hi)
  | _ => none

/-- Send-span announcements occurring in a trace, in order. -/
def sendSpans (evs : List (MUIEvent K)) :
    List (ℤ × ℤ × (Fin 3 → K) × (Fin 3 → K)) :=
  evs.filterMap sendSpanOf

/-- Receive-span announcements occurring in a trace, in order. -/
def recvSpans (evs : List (MUIEvent K)) :
    List (ℤ × ℤ × (Fin 3 → K) × (Fin 3 → K)) :=
  evs.filterMap recvSpanOf

/-! ## The rotation-fit contract of the rigid-body push (source line 650)

`scipy.spatial.transform.Rotation.align_vectors(a, b)` returns the proper
rotation `R` minimising `Σᵢ ‖aᵢ − R bᵢ‖²` (no centroid subtraction). -/

/-- The alignment loss minimised by `Rotation.align_vectors(a, b)`. -/
def alignLoss (a b : List (Fin 3 → ℝ)) (R : Matrix (Fin 3) (Fin 3) ℝ) : ℝ :=
  ((a.zip b).map (fun q => ∑ k, (q.1 k - R.mulVec q.2 k) ^ 2)).sum

/-- `R` is a proper rotation matrix. -/
def IsRotation (R : Matrix (Fin 3) (Fin 3) ℝ) : Prop :=
  R.transpose * R = 1 ∧ R.det = 1

/-- The documented contract of `Rotation.align_vectors(a, b)`: its result
minimises the alignment loss over proper rotations. -/
def IsAlignMin (a b : List (Fin 3 → ℝ)) (R : Matrix (Fin 3) (Fin 3) ℝ) :
    Prop :=
  IsRotation R ∧ ∀ S, IsRotation S → alignLoss a b R ≤ alignLoss a b S

/-- A concrete rigid-panel corner configuration for the rigid-body push:
the four tracked reference points `(0,0,0), (1,0,0), (0,1,0), (1,1,0)`. -/
def rigidInitPoints : List (Fin 3 → ℝ) := [![0, 0, 0], ![1, 0, 0], ![0, 1, 0], ![1, 1, 0]]

/-- All four tracked points displaced by the identical translation
`(0,0,1)` with no rotation. -/
def rigidDispPoints : List (Fin 3 → ℝ) := [![0, 0, 1], ![0, 0, 1], ![0, 0, 1], ![0, 0, 1]]

/-- A concrete proper rotation (about the x-axis, `cos = 3/5`,
`sin = −4/5`) that aligns the translated corners strictly better than the
identity does. -/
noncomputable def rigidBetterRot : Matrix (Fin 3) (Fin 3) ℝ :=
  !![1, 0, 0; 0, 3/5, 4/5; 0, -4/5, 3/5]

/-! ## Helper lemmas -/

/-- A non-empty list of positive elements has a positive sum. -/
theorem list_sum_pos {l : List K} (h : ∀ x ∈ l, 0 < x) (hne : l ≠ []) :
    0 < l.sum := by
  match l with
  | [] => exact absurd rfl hne
  | a :: t =>
    rw [List.sum_cons]
    exact add_pos_of_pos_of_nonneg (h a (List.mem_cons_self a t))
      (List.sum_nonneg fun x hx => (h x (List.mem_cons_of_mem a hx)).le)

/-- Every clamped distance is positive (it is at least `smallVal`). -/
theorem forceDist_pos (sqrtFn : K → K) (CofR q : Fin 3 → K) :
    0 < forceDist sqrtFn CofR q :=
  lt_of_lt_of_le (by norm_num [smallVal]) (le_max_right _ _)

/-! ## Claim theorems -/

/-- C1: for every non-empty support point set and every centre of reaction,
`ForceInterp` (with the code's clamped inverse-distance weights) returns
per-point forces whose component-wise sum equals the resultant `F_in`,
including the single-point case. -/
theorem forceInterp_conserves_resultant (F_in CofR : Fin 3 → ℝ)
    (SpprtLoc : List (Fin 3 → ℝ)) (h : SpprtLoc ≠ []) :
    vecListSum (ForceInterp Real.sqrt F_in CofR SpprtLoc) = F_in := by
  funext k
  set d : (Fin 3 → ℝ) → ℝ := fun q => forceDist Real.sqrt CofR q with hd
  set S : ℝ := (SpprtLoc.map (fun q => (d q)⁻¹)).sum with hSdef
  have hSpos : 0 < S := by
    refine list_sum_pos (fun x hx => ?_) (by simpa using h)
    obtain ⟨q, hq, rfl⟩ := List.mem_map.1 hx
    exact inv_pos.2 (forceDist_pos Real.sqrt CofR q)
  have hmap : (ForceInterp Real.sqrt F_in CofR SpprtLoc).map (fun v => v k)
      = SpprtLoc.map (fun loc => (F_in k * S⁻¹) * (d loc)⁻¹) := by
    simp only [ForceInterp, List.map_map]
    congr 1
    funext loc
    simp only [Function.comp_apply, ← hSdef, ← hd]
    rw [mul_inv]
    ring
  show ((ForceInterp Real.sqrt F_in CofR SpprtLoc).map (fun v => v k)).sum
      = F_in k
  rw [hmap, List.sum_map_mul_left, ← hSdef, mul_assoc,
    inv_mul_cancel₀ hSpos.ne', mul_one]

/-- Witness for C1 at a concrete single support point coinciding with the
centre of reaction. -/
theorem forceInterp_conserves_resultant_witness :
    ([fun _ => (0 : ℝ)] ≠ ([] : List (Fin 3 → ℝ))) ∧
    vecListSum (ForceInterp Real.sqrt ![1, 2, 3] (fun _ => 0)
      [fun _ => 0]) = ![1, 2, 3] :=
  ⟨by simp, forceInterp_conserves_resultant ![1, 2, 3] (fun _ => 0)
    [fun _ => 0] (by simp)⟩

/-- A sum of squares is non-negative. -/
theorem sumSq_nonneg (v : Fin 3 → K) : 0 ≤ sumSq v :=
  Finset.sum_nonneg fun i _ => sq_nonneg (v i)

/-- A sum of squares vanishes exactly when every component does. -/
theorem sumSq_eq_zero_iff {v : Fin 3 → K} : sumSq v = 0 ↔ ∀ i, v i = 0 := by
  unfold sumSq
  rw [Finset.sum_eq_zero_iff_of_nonneg fun i _ => sq_nonneg (v i)]
  simp [pow_eq_zero_iff]

/-- C6: centre-of-reaction recovery is idempotent under zero moment: for any
least-squares solver satisfying the `np.linalg.lstsq` contract, a zero
moment yields a zero correction `L`, so `getCofR` returns the previous
centre of reaction unchanged. -/
theorem getCofR_zero_moment
    (lstsqFn : Matrix (Fin 3) (Fin 3) ℝ → (Fin 3 → ℝ) → Fin 3 → ℝ)
    (F c : Fin 3 → ℝ)
    (h : IsLstsqSol (cofrA F) (cofrB (fun _ => 0))
      (lstsqFn (cofrA F) (cofrB (fun _ => 0)))) :
    getCofR lstsqFn F (fun _ => 0) c = c := by
  have hB : cofrB (fun _ => (0 : ℝ)) = 0 := by
    funext i; fin_cases i <;> simp [cofrB]
  rw [hB] at h
  set A := cofrA F with hA
  set L := lstsqFn (cofrA F) 0 with hLdef
  have hres0 : sumSq (A.mulVec (0 : Fin 3 → ℝ) - 0) = 0 := by
    rw [Matrix.mulVec_zero, sub_zero]
    simp [sumSq]
  have hresL : sumSq (A.mulVec L - 0) = 0 :=
    le_antisymm ((h.1 0).trans (le_of_eq hres0)) (sumSq_nonneg _)
  have hLzero : ∀ i, L i = 0 := by
    have hle : sumSq L ≤ sumSq (0 : Fin 3 → ℝ) := h.2 0 (hres0.trans hresL.symm)
    have hzero : sumSq L = 0 :=
      le_antisymm (by simpa [sumSq] using hle) (sumSq_nonneg _)
    exact sumSq_eq_zero_iff.mp hzero
  funext kk
  simp [getCofR, hB, ← hLdef, hLzero kk]

/-- Witness for C6: the trivial solver output `0` satisfies the
least-squares contract when the moment is zero, and `getCofR` then returns
the previous centre of reaction. -/
theorem getCofR_zero_moment_witness :
    IsLstsqSol (cofrA ![(1 : ℝ), 2, 3]) (cofrB (fun _ => 0))
      ((fun _ _ => (fun _ => (0 : ℝ))) (cofrA ![(1 : ℝ), 2, 3])
        (cofrB (fun _ => 0))) ∧
    getCofR (fun _ _ => (fun _ => 0)) ![(1 : ℝ), 2, 3] (fun _ => 0)
      ![4, 5, 6] = ![4, 5, 6] := by
  have hz : Matrix.mulVec (cofrA ![(1 : ℝ), 2, 3]) (fun _ => 0) -
      cofrB (fun _ => 0) = (fun _ => 0) := by
    funext i
    fin_cases i <;> simp [Matrix.mulVec, Matrix.dotProduct, cofrB]
  have hsol : IsLstsqSol (cofrA ![(1 : ℝ), 2, 3]) (cofrB (fun _ => 0))
      (fun _ => 0) := by
    constructor
    · intro x
      rw [hz]
      calc sumSq (fun _ => (0 : ℝ)) = 0 := by simp [sumSq]
        _ ≤ _ := sumSq_nonneg _
    · intro x _
      calc sumSq (fun _ => (0 : ℝ)) = 0 := by simp [sumSq]
        _ ≤ _ := sumSq_nonneg _
  exact ⟨hsol, getCofR_zero_moment (fun _ _ => (fun _ => 0)) ![(1 : ℝ), 2, 3]
    ![4, 5, 6] hsol⟩

/-- Because `temp_vec_function_temp` aliases `tF_apply_vec` (source line
363), the under-relaxation blend reads an already-overwritten old value and
is a no-op: the implicit/parallel blend write equals the explicit overwrite
write on every buffer. -/
theorem blendWrite_parallel_vacuous (r : K) (b : Buf K) (p : ℕ) :
    blendWrite true r b p = blendWrite false r b p := by
  have hfun : (fun k => (b p k).bind (fun tFv =>
      (b p k).bind (fun tempv => some (tFv + (tempv - tFv) * r))))
      = (fun k => b p k) := by
    funext k
    cases hb : b p k with
    | none => rfl
    | some x => simp
  rw [blendWrite, blendWrite, if_pos rfl, if_neg (by simp), hfun]

/-- The batched per-DOF loop gives the same buffer under implicit/parallel
and explicit coupling. -/
theorem perDofLoopMany_parallel_vacuous (r : K) (areaf : ℕ → K)
    (dofs : List ℕ) (b : Buf K) :
    perDofLoopMany true r areaf dofs b = perDofLoopMany false r areaf dofs b := by
  unfold perDofLoopMany
  simp only [blendWrite_parallel_vacuous]

/-- The one-call-per-point loop gives the same buffer under
implicit/parallel and explicit coupling. -/
theorem perDofLoopSingle_parallel_vacuous (r : K) (areaf : ℕ → K)
    (env : FetchEnv K) (xyz : List (Fin 3 → K)) (it : ℤ) (dofs : List ℕ)
    (b : Buf K) :
    perDofLoopSingle true r areaf env xyz it dofs b
      = perDofLoopSingle false r areaf env xyz it dofs b := by
  unfold perDofLoopSingle
  simp only [blendWrite_parallel_vacuous]

/-- C5: the resolved fetch time index is `n − 1` under the
implicit/parallel-coupling flag and `n` otherwise, and a negative resolved
index makes `MUI_Fetch` a no-op: the applied-load buffer is returned
entirely unchanged. -/
theorem mui_fetch_iteration_policy (cfg : FetchConfig ℚ) (sqrtFn : ℚ → ℚ)
    (lstsqFn : Matrix (Fin 3) (Fin 3) ℚ → (Fin 3 → ℚ) → Fin 3 → ℚ)
    (env : FetchEnv ℚ) (dofs_to_xyz : List (Fin 3 → ℚ))
    (dofs_fetch_list : List ℕ) (n : ℤ) (tF : Buf ℚ) :
    (fetchIteration cfg.iparallelFSICoupling n
        = if cfg.iparallelFSICoupling then n - 1 else n) ∧
    (fetchIteration cfg.iparallelFSICoupling n < 0 →
      MUI_Fetch cfg sqrtFn lstsqFn env dofs_to_xyz dofs_fetch_list n tF = tF) := by
  refine ⟨rfl, fun hneg => ?_⟩
  unfold MUI_Fetch
  rw [if_neg (not_le.mpr hneg)]

/-- Witness for C5: with the implicit/parallel flag set and sub-iteration
index `0`, the resolved index is `−1` and the buffer is unchanged. -/
theorem mui_fetch_iteration_policy_witness :
    fetchIteration true 0 < 0 ∧
    MUI_Fetch (⟨true, 0, false, 0, fun _ => 0⟩ : FetchConfig ℚ) (fun _ => 0)
      (fun _ _ => (fun _ => 0)) ⟨fun _ _ _ => 0, fun _ _ _ => []⟩ [] [] 0
      (fun _ _ => some 0) = (fun _ _ => some 0) :=
  ⟨by decide,
    (mui_fetch_iteration_policy (⟨true, 0, false, 0, fun _ => 0⟩ : FetchConfig ℚ)
      (fun _ => 0) (fun _ _ => (fun _ => 0)) ⟨fun _ _ _ => 0, fun _ _ _ => []⟩
      [] [] 0 (fun _ _ => some 0)).2 (by decide)⟩

/-- C3: because the temporary fetch buffer aliases the persistent
applied-load buffer (source line 363), the blend increment is identically
zero, so a fetch under the implicit/parallel branch (at sub-iteration
`n + 1`, which resolves to fetch index `n`) produces exactly the same buffer
as the explicit overwrite branch (at sub-iteration `n`, also resolving to
`n`), for every under-relaxation factor, in every fetch mode. -/
theorem mui_fetch_parallel_blend_equals_overwrite (cfg : FetchConfig ℚ)
    (sqrtFn : ℚ → ℚ)
    (lstsqFn : Matrix (Fin 3) (Fin 3) ℚ → (Fin 3 → ℚ) → Fin 3 → ℚ)
    (env : FetchEnv ℚ) (dofs_to_xyz : List (Fin 3 → ℚ))
    (dofs_fetch_list : List ℕ) (n : ℤ) (b : Buf ℚ) :
    MUI_Fetch { cfg with iparallelFSICoupling := true } sqrtFn lstsqFn env
        dofs_to_xyz dofs_fetch_list (n + 1) b
      = MUI_Fetch { cfg with iparallelFSICoupling := false } sqrtFn lstsqFn env
        dofs_to_xyz dofs_fetch_list n b := by
  simp only [MUI_Fetch, fetchIteration, if_true, if_false, Bool.false_eq_true,
    add_sub_cancel_right, perDofLoopMany_parallel_vacuous,
    perDofLoopSingle_parallel_vacuous]

/-- C2 (code-bug evidence): in batched per-DOF mode with the
implicit/parallel flag and relaxation factor `1/2`, a fetch of force `1`
into a buffer previously holding `0` (area weight `1`) yields applied load
`1` — the freshly fetched value — not the blend `0 + (1 − 0) × 1/2 = 1/2`
required by the claim, because the blend's `old` value was already
overwritten through the aliased temporary buffer. -/
theorem mui_fetch_blend_uses_overwritten_old :
    (MUI_Fetch (⟨true, 0, true, 1 / 2, fun _ => 1⟩ : FetchConfig ℚ)
        (fun _ => 0) (fun _ _ => (fun _ => 0))
        ⟨fun _ _ _ => 0, fun _ locs _ => locs.map (fun _ => 1)⟩
        [fun _ => 0] [0] 1 (fun _ _ => some 0)) 0 0 = some 1 ∧
    ((0 : ℚ) + (1 - 0) * (1 / 2)) = 1 / 2 ∧ (1 : ℚ) ≠ 1 / 2 := by
  refine ⟨?_, by norm_num, by norm_num⟩
  norm_num [MUI_Fetch, fetchIteration, perDofLoopMany, manyAssign, blendWrite,
    divideGuarded, setEntry, List.enum, List.enumFrom]

/-- C4 (code-bug evidence): a DOF with area weight `0` fetched in
one-call-per-point mode is divided by the zero area weight (source lines
560–562 have no zero guard), producing a non-finite value (`none`) instead
of the load `0` the claim requires; the batched mode's guarded division
(source lines 511–518) does yield exactly `0` on the same input. -/
theorem mui_fetch_zero_area_single_mode_not_zero :
    (MUI_Fetch (⟨false, 0, false, 1, fun _ => 0⟩ : FetchConfig ℚ)
        (fun _ => 0) (fun _ _ => (fun _ => 0))
        ⟨fun _ _ _ => 1, fun _ locs _ => locs.map (fun _ => 1)⟩
        [fun _ => 0] [0] 0 (fun _ _ => some 0)) 0 0 = none ∧
    (MUI_Fetch (⟨false, 0, true, 1, fun _ => 0⟩ : FetchConfig ℚ)
        (fun _ => 0) (fun _ _ => (fun _ => 0))
        ⟨fun _ _ _ => 1, fun _ locs _ => locs.map (fun _ => 1)⟩
        [fun _ => 0] [0] 0 (fun _ _ => some 0)) 0 0 = some 0 := by
  constructor
  · norm_num [MUI_Fetch, fetchIteration, perDofLoopSingle, blendWrite,
      divideUnguarded, setEntry, List.enum, List.enumFrom]
  · norm_num [MUI_Fetch, fetchIteration, perDofLoopMany, manyAssign,
      blendWrite, divideGuarded, setEntry, List.enum, List.enumFrom]

/-- Computation rules for the trace extractors. -/
@[simp] theorem commitOf_push (ch : String) (l : Fin 3 → K) (v : K) :
    commitOf (MUIEvent.push ch l v) = none := rfl

@[simp] theorem commitOf_pushMany (ch : String) (ls : List (Fin 3 → K))
    (vs : List K) : commitOf (MUIEvent.pushMany ch ls vs) = none := rfl

@[simp] theorem commitOf_commit (t : ℤ) :
    commitOf (MUIEvent.commit t : MUIEvent K) = some t := rfl

@[simp] theorem forgetOf_push (ch : String) (l : Fin 3 → K) (v : K) :
    forgetOf (MUIEvent.push ch l v) = none := rfl

@[simp] theorem forgetOf_pushMany (ch : String) (ls : List (Fin 3 → K))
    (vs : List K) : forgetOf (MUIEvent.pushMany ch ls vs) = none := rfl

@[simp] theorem forgetOf_commit (t : ℤ) :
    forgetOf (MUIEvent.commit t : MUIEvent K) = none := rfl

@[simp] theorem setMemoryOf_push (ch : String) (l : Fin 3 → K) (v : K) :
    setMemoryOf (MUIEvent.push ch l v) = none := rfl

@[simp] theorem setMemoryOf_pushMany (ch : String) (ls : List (Fin 3 → K))
    (vs : List K) : setMemoryOf (MUIEvent.pushMany ch ls vs) = none := rfl

@[simp] theorem setMemoryOf_commit (t : ℤ) :
    setMemoryOf (MUIEvent.commit t : MUIEvent K) = none := rfl

/-- A filter-map over events all mapped to `none` is empty. -/
theorem filterMap_comp_eq_nil {α β : Type} (fo : MUIEvent K → Option β)
    (f : α → MUIEvent K) (l : List α) (h : ∀ a, fo (f a) = none) :
    List.filterMap (fo ∘ f) l = [] :=
  List.filterMap_eq_nil_iff.mpr fun a _ => h a

/-- The window-trimming block contains no commit. -/
theorem filterMap_commitOf_forgetEvents (k n : ℤ) :
    List.filterMap commitOf (forgetEvents k n : List (MUIEvent K)) = [] := by
  rw [forgetEvents]; split <;> rfl

/-- The window-trimming block's forget indices. -/
theorem filterMap_forgetOf_forgetEvents (k n : ℤ) :
    List.filterMap forgetOf (forgetEvents k n : List (MUIEvent K))
      = if n - k > 0 ∧ k ≠ 0 then [n - k] else [] := by
  rw [forgetEvents]; split <;> simp_all [forgetOf]

/-- The window-trimming block's advertised memory horizons. -/
theorem filterMap_setMemoryOf_forgetEvents (k n : ℤ) :
    List.filterMap setMemoryOf (forgetEvents k n : List (MUIEvent K))
      = if n - k > 0 ∧ k ≠ 0 then [k] else [] := by
  rw [forgetEvents]; split <;> simp_all [setMemoryOf]

/-- C9: every call to `MUI_Push` in a selectable push mode (per-DOF mode `0`
or rigid-body mode `1`) issues exactly one commit, at the current
sub-iteration index, regardless of the batching and per-axis flags. -/
theorem mui_push_commits_once (cfg : PushConfig ℚ)
    (alignFn : List (Fin 3 → ℚ) → List (Fin 3 → ℚ) → Matrix (Fin 3) (Fin 3) ℚ)
    (eulerFn : Matrix (Fin 3) (Fin 3) ℚ → Fin 3 → ℚ)
    (pointDisp : (Fin 3 → ℚ) → Fin 3 → ℚ)
    (dofs_to_xyz : List (Fin 3 → ℚ)) (dofs_push : List ℕ)
    (displacement : ℕ → Fin 3 → ℚ) (n : ℤ)
    (h : cfg.iMUIPushMode = 0 ∨ cfg.iMUIPushMode = 1) :
    commitTimes (MUI_Push cfg alignFn eulerFn pointDisp dofs_to_xyz dofs_push
      displacement n) = [n] := by
  rcases h with h | h
  · simp only [MUI_Push, h]
    split_ifs <;>
      simp [commitTimes, List.filterMap_append, List.filterMap_map,
        filterMap_comp_eq_nil, filterMap_commitOf_forgetEvents]
  · simp only [MUI_Push, h, rigidBodyEvents]
    simp [commitTimes, List.filterMap_append,
      filterMap_commitOf_forgetEvents]

/-- Witness for C9 at a concrete per-DOF-mode configuration. -/
theorem mui_push_commits_once_witness :
    ((⟨0, true, true, true, true, 0, fun _ => 0, fun _ => 0, fun _ => 0,
        fun _ => 0⟩ : PushConfig ℚ).iMUIPushMode = 0 ∨
      (⟨0, true, true, true, true, 0, fun _ => 0, fun _ => 0, fun _ => 0,
        fun _ => 0⟩ : PushConfig ℚ).iMUIPushMode = 1) ∧
    commitTimes (MUI_Push (⟨0, true, true, true, true, 0, fun _ => 0,
      fun _ => 0, fun _ => 0, fun _ => 0⟩ : PushConfig ℚ) (fun _ _ => 1)
      (fun _ => (fun _ => 0)) (fun v => v) [] [] (fun _ _ => 0) 0) = [0] :=
  ⟨Or.inl rfl,
    mui_push_commits_once (⟨0, true, true, true, true, 0, fun _ => 0,
      fun _ => 0, fun _ => 0, fun _ => 0⟩ : PushConfig ℚ) (fun _ _ => 1)
      (fun _ => (fun _ => 0)) (fun v => v) [] [] (fun _ _ => 0) 0
      (Or.inl rfl)⟩

/-- C8: after the commit of `MUI_Push` (any mode) and of `MUI_Commit_only`,
at current index `n` with retention depth `k`, a forget is issued exactly
when `k ≠ 0` and `n − k > 0`, and then exactly for index `n − k`, followed
by advertising memory horizon `k`; for `k = 0` no forget is ever issued. -/
theorem mui_window_trimming (cfg : PushConfig ℚ)
    (alignFn : List (Fin 3 → ℚ) → List (Fin 3 → ℚ) → Matrix (Fin 3) (Fin 3) ℚ)
    (eulerFn : Matrix (Fin 3) (Fin 3) ℚ → Fin 3 → ℚ)
    (pointDisp : (Fin 3 → ℚ) → Fin 3 → ℚ)
    (dofs_to_xyz : List (Fin 3 → ℚ)) (dofs_push : List ℕ)
    (displacement : ℕ → Fin 3 → ℚ) (n : ℤ) :
    (forgetTimes (MUI_Push cfg alignFn eulerFn pointDisp dofs_to_xyz dofs_push
        displacement n)
      = if n - cfg.forgetTStepsMUI > 0 ∧ cfg.forgetTStepsMUI ≠ 0 then
          [n - cfg.forgetTStepsMUI] else []) ∧
    (setMemoryTimes (MUI_Push cfg alignFn eulerFn pointDisp dofs_to_xyz
        dofs_push displacement n)
      = if n - cfg.forgetTStepsMUI > 0 ∧ cfg.forgetTStepsMUI ≠ 0 then
          [cfg.forgetTStepsMUI] else []) ∧
    (forgetTimes (MUI_Commit_only cfg.forgetTStepsMUI n : List (MUIEvent ℚ))
      = if n - cfg.forgetTStepsMUI > 0 ∧ cfg.forgetTStepsMUI ≠ 0 then
          [n - cfg.forgetTStepsMUI] else []) ∧
    (setMemoryTimes (MUI_Commit_only cfg.forgetTStepsMUI n : List (MUIEvent ℚ))
      = if n - cfg.forgetTStepsMUI > 0 ∧ cfg.forgetTStepsMUI ≠ 0 then
          [cfg.forgetTStepsMUI] else []) := by
  refine ⟨?_, ?_, ?_, ?_⟩ <;>
    simp only [MUI_Push, MUI_Commit_only, rigidBodyEvents, forgetTimes,
      setMemoryTimes, List.filterMap_append, List.filterMap_map,
      filterMap_forgetOf_forgetEvents, filterMap_setMemoryOf_forgetEvents] <;>
    split_ifs <;>
    simp_all [filterMap_comp_eq_nil]

/-- Computation rules for the span extractors. -/
@[simp] theorem sendSpanOf_warn (tag : String) :
    sendSpanOf (MUIEvent.warn tag : MUIEvent K) = none := rfl

@[simp] theorem recvSpanOf_warn (tag : String) :
    recvSpanOf (MUIEvent.warn tag : MUIEvent K) = none := rfl

@[simp] theorem sendSpanOf_announceSend (t0 t1 : ℤ) (lo hi : Fin 3 → K) :
    sendSpanOf (MUIEvent.announceSendSpan t0 t1 lo hi)
      = some (t0, t1, lo, hi) := rfl

@[simp] theorem sendSpanOf_announceRecv (t0 t1 : ℤ) (lo hi : Fin 3 → K) :
    sendSpanOf (MUIEvent.announceRecvSpan t0 t1 lo hi) = none := rfl

@[simp] theorem recvSpanOf_announceSend (t0 t1 : ℤ) (lo hi : Fin 3 → K) :
    recvSpanOf (MUIEvent.announceSendSpan t0 t1 lo hi) = none := rfl

@[simp] theorem recvSpanOf_announceRecv (t0 t1 : ℤ) (lo hi : Fin 3 → K) :
    recvSpanOf (MUIEvent.announceRecvSpan t0 t1 lo hi)
      = some (t0, t1, lo, hi) := rfl

/-- The degenerate-box warnings contain no span announcement. -/
theorem filterMap_sendSpanOf_warnEvents (tag : String) (mn mx : Fin 3 → K) :
    List.filterMap sendSpanOf (warnEvents tag mn mx) = [] := by
  rw [warnEvents]
  split_ifs <;> rfl

/-- The degenerate-box warnings contain no span announcement. -/
theorem filterMap_recvSpanOf_warnEvents (tag : String) (mn mx : Fin 3 → K) :
    List.filterMap recvSpanOf (warnEvents tag mn mx) = [] := by
  rw [warnEvents]
  split_ifs <;> rfl

/-- C10: an empty push (resp. fetch) DOF set produces no send-span (resp.
receive-span) announcement; a non-empty set produces exactly one
announcement carrying the computed bounding box, with lifetimes
`Total_Time_Steps × num_sub_iteration` (send) and ten times that (receive),
regardless of any degenerate-box warnings. -/
theorem sampler_span_policy (xyz : ℕ → Fin 3 → ℚ)
    (dofs_push_list dofs_fetch_list : List ℕ) (T S : ℤ) :
    (sendSpans (MUI_Sampler_Define_spans xyz dofs_push_list dofs_fetch_list T S)
      = if dofs_push_list = [] then [] else
          [(0, T * S, spanMin xyz dofs_push_list, spanMax xyz dofs_push_list)]) ∧
    (recvSpans (MUI_Sampler_Define_spans xyz dofs_push_list dofs_fetch_list T S)
      = if dofs_fetch_list = [] then [] else
          [(0, T * S * 10, spanMin xyz dofs_fetch_list,
            spanMax xyz dofs_fetch_list)]) := by
  constructor <;>
    simp only [MUI_Sampler_Define_spans, sendSpans, recvSpans,
      List.filterMap_append, filterMap_sendSpanOf_warnEvents,
      filterMap_recvSpanOf_warnEvents] <;>
    split_ifs <;>
    simp_all [List.length_eq_zero]

/-- C7 (code-bug evidence): in rigid-body push mode the pushed
surge/sway/heave equal the mean corner displacement -- for four corners
displaced by the identical translation `(0,0,1)` this is `(0,0,1)` as the
claim requires -- but the rotation `scipy` fits (line 650) minimises
`sum of |init_i - R (init_i + t)|^2` WITHOUT centroid subtraction, and for
these (non-centred) corners the identity rotation is strictly beaten by a
rotation about the x-axis, so the optimal rotation is not the identity and
the pushed roll/pitch/yaw are not all zero. -/
theorem mui_push_rigid_translation_bug :
    rigidTrans rigidDispPoints = ![0, 0, 1] ∧
    ¬ IsAlignMin rigidInitPoints
        (cornersNewOf rigidDispPoints rigidInitPoints) 1 := by
  constructor
  · funext k
    fin_cases k <;>
      norm_num [rigidTrans, rigidDispPoints]
  · rintro ⟨-, hmin⟩
    have hrot : IsRotation rigidBetterRot := by
      constructor
      · ext i j
        fin_cases i <;> fin_cases j <;>
          norm_num [rigidBetterRot, Matrix.mul_apply, Fin.sum_univ_three,
            Matrix.transpose_apply, Matrix.one_apply, Matrix.vecHead,
            Matrix.vecTail, Fin.ext_iff]
      · norm_num [rigidBetterRot, Matrix.det_fin_three]
    have hlt : alignLoss rigidInitPoints
        (cornersNewOf rigidDispPoints rigidInitPoints) rigidBetterRot
        < alignLoss rigidInitPoints
        (cornersNewOf rigidDispPoints rigidInitPoints) 1 := by
      norm_num [alignLoss, cornersNewOf, rigidInitPoints, rigidDispPoints,
        rigidBetterRot, Matrix.mulVec, Matrix.dotProduct, Fin.sum_univ_three,
        Matrix.one_apply, Matrix.vecHead, Matrix.vecTail, Fin.ext_iff]
    exact absurd (hmin rigidBetterRot hrot) (not_le.mpr hlt)

end ParaSiF
